import Mathlib

/-!
Shallow embedding of `src/skills/search-web/scripts/search_web.py`.

Conventions of the embedding:
* Python strings are Lean `String`s; most character-level work happens on
  `String.data : List Char`.
* Python `None`/JSON values are modelled by the inductive `Json` below.
  JSON numbers are modelled as arbitrary-precision integers (Python ints);
  fractional or exponent number literals are treated as parse failures — no
  property proved here depends on non-integer numeric payloads.
* Unicode case folding of `str.lower()` is modelled for ASCII letters plus the
  Polish uppercase letters that can occur in the hard-coded keyword lexicons.
* HTTP transports are oracles: the single GitHub GET is an
  `Except String Json` (`.error` = message passed to `_die`, `.ok` = parsed
  body), and the chat-completion POST is a `Nat → Except String Json` indexed
  by call order.  Request payloads (prompt text) are not modelled, since no
  claim depends on their contents; the number and order of calls is modelled
  exactly.
-/

set_option maxRecDepth 100000

namespace SearchWeb

/-- JSON values (also used for Python objects decoded from JSON). -/
inductive Json where
  | null : Json
  | bool : Bool → Json
  | num : Int → Json
  | str : String → Json
  | arr : List Json → Json
  | obj : List (String × Json) → Json

/-- The character `{` (written via its code point to keep the source plain). -/
def lbraceC : Char := Char.ofNat 123

/-- The character `}`. -/
def rbraceC : Char := Char.ofNat 125

/-- The character `'`. -/
def squoteC : Char := Char.ofNat 39

/-- Python truthiness of a decoded-JSON value. -/
def pyTruthy : Json → Bool
  | .null => false
  | .bool b => b
  | .num n => n != 0
  | .str s => s != ""
  | .arr xs => !xs.isEmpty
  | .obj kvs => !kvs.isEmpty

mutual

/-- Python `repr` of a decoded-JSON value (used by `str()` on containers). -/
def pyRepr : Json → String
  | .null => "None"
  | .bool true => "True"
  | .bool false => "False"
  | .num n => toString n
  | .str s => String.mk [squoteC] ++ s ++ String.mk [squoteC]
  | .arr xs => "[" ++ String.intercalate ", " (pyReprList xs) ++ "]"
  | .obj kvs => "\x7b" ++ String.intercalate ", " (pyReprPairs kvs) ++ "\x7d"

/-- `repr` of each element of a list. -/
def pyReprList : List Json → List String
  | [] => []
  | x :: xs => pyRepr x :: pyReprList xs

/-- `repr` of each key/value pair of a dict. -/
def pyReprPairs : List (String × Json) → List String
  | [] => []
  | (k, v) :: rest =>
      (String.mk [squoteC] ++ k ++ String.mk [squoteC] ++ ": " ++ pyRepr v) :: pyReprPairs rest

end

/-- Python `str()` of a decoded-JSON value. -/
def pyStr : Json → String
  | .str s => s
  | j => pyRepr j

/-- First-match association lookup in a decoded-JSON object.  Objects built by
the parser below and by `setdefault` have distinct keys, so first-match agrees
with Python dict lookup. -/
def lookupStr : List (String × Json) → String → Option Json
  | [], _ => none
  | (k, v) :: rest, key => if k = key then some v else lookupStr rest key

/-- Python `d.get(k)` on a dict, with `None` for a missing key. -/
def jgetD (j : Json) (k : String) : Json :=
  match j with
  | .obj kvs => (lookupStr kvs k).getD Json.null
  | _ => Json.null

/-- Python `a or b` specialised to a JSON value on the left. -/
def pyOrJ (a b : Json) : Json := if pyTruthy a then a else b

/-- Characters recognised by Python `str.strip()` / `\s` (ASCII fragment). -/
def pyIsSpace (c : Char) : Bool :=
  c = ' ' || c = '\t' || c = '\n' || c = '\r' || c = Char.ofNat 11 || c = Char.ofNat 12

/-- `str.strip()` on a character list. -/
def pyStripChars (cs : List Char) : List Char :=
  ((cs.dropWhile pyIsSpace).reverse.dropWhile pyIsSpace).reverse

/-- `str.strip()`. -/
def pyStripS (s : String) : String := String.mk (pyStripChars s.data)

/-- `str.rstrip()`. -/
def pyRstripS (s : String) : String :=
  String.mk (s.data.reverse.dropWhile pyIsSpace).reverse

/-- One-character case folding: ASCII letters plus the Polish uppercase
letters that occur in queries matched against the hard-coded lexicons. -/
def pyLowerChar (c : Char) : Char :=
  if 'A' ≤ c ∧ c ≤ 'Z' then Char.ofNat (c.toNat + 32)
  else if c = 'Ą' then 'ą'
  else if c = 'Ć' then 'ć'
  else if c = 'Ę' then 'ę'
  else if c = 'Ł' then 'ł'
  else if c = 'Ń' then 'ń'
  else if c = 'Ó' then 'ó'
  else if c = 'Ś' then 'ś'
  else if c = 'Ź' then 'ź'
  else if c = 'Ż' then 'ż'
  else c

/-- `str.lower()`. -/
def pyLowerS (s : String) : String := String.mk (s.data.map pyLowerChar)

/-- Is `needle` a prefix of `hay`? -/
def isPrefixList : List Char → List Char → Bool
  | [], _ => true
  | _ :: _, [] => false
  | a :: as, b :: bs => a = b && isPrefixList as bs

/-- Python `needle in hay` substring test, on character lists. -/
def containsSub (hay needle : List Char) : Bool :=
  match hay with
  | [] => needle.isEmpty
  | _ :: t => isPrefixList needle hay || containsSub t needle

/-- Python `needle in hay` substring test, on strings. -/
def containsS (hay needle : String) : Bool := containsSub hay.data needle.data

/-- Whitespace tokenisation: `[w for w in re.split(r"\s+", q) if w]`. -/
def wsTokensAux : List Char → List Char → List (List Char)
  | [], acc => if acc.isEmpty then [] else [acc.reverse]
  | c :: rest, acc =>
      if pyIsSpace c then
        if acc.isEmpty then wsTokensAux rest [] else acc.reverse :: wsTokensAux rest []
      else wsTokensAux rest (c :: acc)

/-- The non-empty whitespace-separated tokens of a character list. -/
def wsTokens (cs : List Char) : List (List Char) := wsTokensAux cs []

/-- Python `str.splitlines()` (the `\n`, `\r\n`, `\r` line breaks). -/
def splitlinesAux : List Char → List Char → List String
  | [], acc => if acc.isEmpty then [] else [String.mk acc.reverse]
  | '\r' :: '\n' :: rest, acc => String.mk acc.reverse :: splitlinesAux rest []
  | '\r' :: rest, acc => String.mk acc.reverse :: splitlinesAux rest []
  | '\n' :: rest, acc => String.mk acc.reverse :: splitlinesAux rest []
  | c :: rest, acc => splitlinesAux rest (c :: acc)

/-- Python `str.splitlines()`. -/
def pySplitlines (s : String) : List String := splitlinesAux s.data []

/-! ## A small JSON parser, modelling `json.loads`

Only what `_extract_first_json_object` needs: failures are `none`.  Numbers
are restricted to (optionally signed) integers; fractional and exponent
literals are rejected.  `\uXXXX` escapes outside the valid scalar range fall
back to the default character. -/

/-- JSON insignificant whitespace. -/
def isJsonWs (c : Char) : Bool := c = ' ' || c = '\t' || c = '\n' || c = '\r'

/-- Single-character escape codes inside JSON strings. -/
def escapeChar (c : Char) : Option Char :=
  if c = '\"' then some '\"'
  else if c = '\\' then some '\\'
  else if c = '/' then some '/'
  else if c = 'b' then some (Char.ofNat 8)
  else if c = 'f' then some (Char.ofNat 12)
  else if c = 'n' then some '\n'
  else if c = 'r' then some '\r'
  else if c = 't' then some '\t'
  else none

/-- Hexadecimal digit value. -/
def hexVal (c : Char) : Option Nat :=
  if '0' ≤ c ∧ c ≤ '9' then some (c.toNat - 48)
  else if 'a' ≤ c ∧ c ≤ 'f' then some (c.toNat - 87)
  else if 'A' ≤ c ∧ c ≤ 'F' then some (c.toNat - 55)
  else none

/-- Body of a JSON string after the opening quote; returns content and rest. -/
def parseStrAux : List Char → List Char → Option (List Char × List Char)
  | [], _ => none
  | '\"' :: rest, acc => some (acc.reverse, rest)
  | '\\' :: 'u' :: h1 :: h2 :: h3 :: h4 :: rest, acc =>
      match hexVal h1, hexVal h2, hexVal h3, hexVal h4 with
      | some a, some b, some c, some d =>
          parseStrAux rest (Char.ofNat (((a * 16 + b) * 16 + c) * 16 + d) :: acc)
      | _, _, _, _ => none
  | '\\' :: e :: rest, acc =>
      match escapeChar e with
      | some ec => parseStrAux rest (ec :: acc)
      | none => none
  | c :: rest, acc => if c.toNat < 32 then none else parseStrAux rest (c :: acc)

/-- Digit list to a natural number. -/
def digitsToNat (ds : List Char) : Nat :=
  ds.foldl (fun n c => n * 10 + (c.toNat - 48)) 0

/-- JSON integer literal (fraction/exponent rejected, see module note). -/
def parseNum (cs : List Char) : Option (Json × List Char) :=
  let p := match cs with
    | '-' :: t => (true, t)
    | _ => (false, cs)
  let digits := p.2.takeWhile Char.isDigit
  let rest := p.2.dropWhile Char.isDigit
  if digits.isEmpty then none
  else if 1 < digits.length ∧ digits.head? = some '0' then none
  else
    match rest with
    | '.' :: _ => none
    | 'e' :: _ => none
    | 'E' :: _ => none
    | _ => some (Json.num (if p.1 then -(digitsToNat digits : Int) else (digitsToNat digits : Int)), rest)

/-- Insert into a decoded object, Python-dict style: an existing key keeps its
position and gets the new value, a new key is appended. -/
def objInsert (kvs : List (String × Json)) (k : String) (v : Json) : List (String × Json) :=
  match kvs with
  | [] => [(k, v)]
  | (k', v') :: rest => if k' = k then (k', v) :: rest else (k', v') :: objInsert rest k v

mutual

/-- JSON value, fuel-bounded recursion (fuel is a bound on recursion depth,
generously instantiated at the top entry point). -/
def parseVal : Nat → List Char → Option (Json × List Char)
  | 0, _ => none
  | Nat.succ fuel, cs =>
    let cs := cs.dropWhile isJsonWs
    match cs with
    | 't' :: 'r' :: 'u' :: 'e' :: rest => some (.bool true, rest)
    | 'f' :: 'a' :: 'l' :: 's' :: 'e' :: rest => some (.bool false, rest)
    | 'n' :: 'u' :: 'l' :: 'l' :: rest => some (.null, rest)
    | '\"' :: rest => (parseStrAux rest []).map (fun p => (.str (String.mk p.1), p.2))
    | c :: rest =>
        if c = lbraceC then parseObjBody fuel rest
        else if c = '[' then parseArrBody fuel rest
        else parseNum cs
    | [] => none

/-- Array body after `[`. -/
def parseArrBody : Nat → List Char → Option (Json × List Char)
  | 0, _ => none
  | Nat.succ fuel, cs =>
    let cs := cs.dropWhile isJsonWs
    match cs with
    | ']' :: rest => some (.arr [], rest)
    | _ => parseElems fuel cs []

/-- Comma-separated array elements. -/
def parseElems : Nat → List Char → List Json → Option (Json × List Char)
  | 0, _, _ => none
  | Nat.succ fuel, cs, acc =>
    match parseVal fuel cs with
    | none => none
    | some (v, rest) =>
      let rest := rest.dropWhile isJsonWs
      match rest with
      | ',' :: rest2 => parseElems fuel rest2 (acc ++ [v])
      | ']' :: rest2 => some (.arr (acc ++ [v]), rest2)
      | _ => none

/-- Object body after the opening brace. -/
def parseObjBody : Nat → List Char → Option (Json × List Char)
  | 0, _ => none
  | Nat.succ fuel, cs =>
    let cs := cs.dropWhile isJsonWs
    match cs with
    | c :: rest =>
        if c = rbraceC then some (.obj [], rest)
        else parseMembers fuel (c :: rest) []
    | [] => none

/-- Comma-separated object members (duplicate keys: last value wins, first
position kept — as in Python). -/
def parseMembers : Nat → List Char → List (String × Json) → Option (Json × List Char)
  | 0, _, _ => none
  | Nat.succ fuel, cs, acc =>
    let cs := cs.dropWhile isJsonWs
    match cs with
    | '\"' :: rest =>
      match parseStrAux rest [] with
      | none => none
      | some (key, rest2) =>
        let rest2 := rest2.dropWhile isJsonWs
        match rest2 with
        | ':' :: rest3 =>
          match parseVal fuel rest3 with
          | none => none
          | some (v, rest4) =>
            let rest4 := rest4.dropWhile isJsonWs
            let acc' := objInsert acc (String.mk key) v
            match rest4 with
            | ',' :: rest5 => parseMembers fuel rest5 acc'
            | c :: rest5 => if c = rbraceC then some (.obj acc', rest5) else none
            | [] => none
        | _ => none
    | _ => none

end

/-- `json.loads`: parse a complete JSON document (whitespace-padded). -/
def jsonLoads (s : String) : Option Json :=
  match parseVal (2 * s.data.length + 8) s.data with
  | some (v, rest) => if (rest.dropWhile isJsonWs).isEmpty then some v else none
  | none => none

/-! ## `_extract_first_json_object` and the structured-plan post-processing -/

/-- The brace-depth scan of `_extract_first_json_object`: `cs` starts at the
first `{` of the text; emit the chunk up to the brace closing depth 0. -/
def scanChunk : List Char → Nat → List Char → Option (List Char)
  | [], _, _ => none
  | c :: rest, depth, acc =>
    if c = lbraceC then scanChunk rest (depth + 1) (acc ++ [c])
    else if c = rbraceC then
      if depth ≤ 1 then some (acc ++ [c])
      else scanChunk rest (depth - 1) (acc ++ [c])
    else scanChunk rest depth (acc ++ [c])

/-- `_extract_first_json_object`: take the first balanced brace-delimited
chunk (naive depth counting over raw characters), `json.loads` it, and keep
the result only when it is an object. -/
def extractFirstJsonObject (text : String) : Option Json :=
  let cs := text.data.dropWhile (fun c => c ≠ lbraceC)
  match cs with
  | [] => none
  | _ =>
    match scanChunk cs 0 [] with
    | none => none
    | some chunk =>
      match jsonLoads (String.mk chunk) with
      | some (Json.obj kvs) => some (Json.obj kvs)
      | _ => none

/-- Python `dict.setdefault` (no-op on non-objects, which cannot occur at its
call sites). -/
def setdefault (j : Json) (key : String) (v : Json) : Json :=
  match j with
  | .obj kvs =>
    match lookupStr kvs key with
    | some _ => .obj kvs
    | none => .obj (kvs ++ [(key, v)])
  | _ => j

/-- The post-processing of `_openrouter_web_search_json_plan` applied to the
assistant's reply text: extract the first JSON object (`or \x7b\x7d` on a
falsy result), replace a non-dict by an empty dict, and default the three
expected fields to empty lists. -/
def jsonPlanFromContent (content : String) : Json :=
  let o := match extractFirstJsonObject content with
    | some j => if pyTruthy j then j else Json.obj []
    | none => Json.obj []
  let o := match o with
    | Json.obj kvs => Json.obj kvs
    | _ => Json.obj []
  setdefault (setdefault (setdefault o "tldr_bullets" (.arr []))
    "sources" (.arr [])) "followup_queries" (.arr [])

/-! ## `_classify_query` and `_explicit_depth_intent` -/

/-- The normalised query `query.strip().lower()` used by `_classify_query`. -/
def normalizedQuery (query : String) : String := pyLowerS (pyStripS query)

/-- Number of whitespace-separated tokens of the normalised query. -/
def queryTokenCount (query : String) : Nat :=
  (wsTokens (normalizedQuery query).data).length

/-- The hard-coded complexity-marker substrings. -/
def complexityMarkers : List String :=
  ["porówn", "różnic", "wady", "zalety", "dlaczego", "jak zrobić",
   "krok po kroku", "strategi", "plan", "analiz", "relacj", "histori",
   "tło", "konsekwenc", "wpływ", "kontrowers", "zależy"]

/-- Does any complexity marker occur in the normalised query? -/
def hasComplexityMarker (query : String) : Bool :=
  complexityMarkers.any (fun m => containsS (normalizedQuery query) m)

/-- `_classify_query`. -/
def classifyQuery (query : String) : String :=
  let q := normalizedQuery query
  let words := wsTokens q.data
  if words.length ≤ 6 then "banal"
  else if complexityMarkers.any (fun m => containsS q m) then "complex"
  else if 12 ≤ words.length then "complex"
  else "banal"

/-- The hard-coded deep-intent keywords. -/
def deepIntentKeywords : List String :=
  ["3 razy", "trzy razy", "iterac", "seria wyszuka", "zgłębia", "głębok", "deep"]

/-- The hard-coded simple-intent keywords. -/
def simpleIntentKeywords : List String :=
  ["proste", "szybko", "jedno wyszuk", "jednoraz", "basic"]

/-- Does any deep-intent keyword occur in the lowercased query? -/
def hasDeepIntentKeyword (query : String) : Bool :=
  deepIntentKeywords.any (fun k => containsS (pyLowerS query) k)

/-- Does any simple-intent keyword occur in the lowercased query? -/
def hasSimpleIntentKeyword (query : String) : Bool :=
  simpleIntentKeywords.any (fun k => containsS (pyLowerS query) k)

/-- `_explicit_depth_intent`. -/
def explicitDepthIntent (query : String) : Option String :=
  let q := pyLowerS query
  if deepIntentKeywords.any (fun k => containsS q k) then some "deep"
  else if simpleIntentKeywords.any (fun k => containsS q k) then some "simple"
  else none

/-! ## `_extract_codex_cli_range` -/

/-- One attempt of the regex `0\.(\d{2})(?:\.\d+)?` at the current position:
on success, the captured minor and the input after the (greedy) match. -/
def matchCodexAt (cs : List Char) : Option (Nat × List Char) :=
  match cs with
  | '0' :: '.' :: d1 :: d2 :: rest =>
    if d1.isDigit ∧ d2.isDigit then
      let minor := (d1.toNat - 48) * 10 + (d2.toNat - 48)
      match rest with
      | '.' :: d :: rest2 =>
        if d.isDigit then some (minor, rest2.dropWhile Char.isDigit)
        else some (minor, rest)
      | _ => some (minor, rest)
    else none
  | _ => none

/-- `re.finditer` over the query: collect the captured minors of all
non-overlapping matches, left to right.  `fuel` bounds the number of loop
steps; since every step consumes at least one character, the input length is
enough fuel (`scanMinorsF_fuel` below makes this precise). -/
def scanMinorsF : Nat → List Char → List Nat
  | 0, _ => []
  | Nat.succ fuel, cs =>
    match matchCodexAt cs with
    | some (m, rest) => m :: scanMinorsF fuel rest
    | none =>
      match cs with
      | [] => []
      | _ :: t => scanMinorsF fuel t

/-- The minors of all matches of the version pattern in `cs`. -/
def scanMinors (cs : List Char) : List Nat := scanMinorsF cs.length cs

/-- `_extract_codex_cli_range`. -/
def extractCodexCliRange (query : String) : Option (Nat × Nat) :=
  match scanMinors query.data with
  | [] => none
  | m :: ms => some (ms.foldl Nat.min m, ms.foldl Nat.max m)

/-! ## `_summarize_bullets_from_markdown` and the changelog report -/

/-- Does the stripped line start with `-` or `*`? -/
def bulletStart (s : String) : Bool :=
  match s.data with
  | c :: _ => c = '-' || c = '*'
  | [] => false

/-- `s.lstrip("-*")`. -/
def lstripBullets (s : String) : String :=
  String.mk (s.data.dropWhile (fun c => c = '-' || c = '*'))

/-- The scanning loop of `_summarize_bullets_from_markdown`: `acc` is the
bullet list built so far; the loop breaks as soon as `limit` is reached
(checked after each append, as in the source). -/
def summarizeGo (limit : Nat) : List String → List String → List String
  | [], acc => acc
  | line :: rest, acc =>
    let s := pyStripS line
    if s = "" then summarizeGo limit rest acc
    else if bulletStart s then
      let item := pyStripS (lstripBullets s)
      if item = "" then summarizeGo limit rest acc
      else
        let acc' := acc ++ [item]
        if limit ≤ acc'.length then acc' else summarizeGo limit rest acc'
    else summarizeGo limit rest acc

/-- `_summarize_bullets_from_markdown`. -/
def summarizeBulletsFromMarkdown (body : String) (limit : Nat) : List String :=
  summarizeGo limit (pySplitlines body) []

/-- Specification-side description of a bullet line's extracted item: strip
the line, require a `-`/`*` start, strip the bullet characters and
surrounding whitespace, require a non-empty remainder. -/
def bulletItem (line : String) : Option String :=
  let s := pyStripS line
  if s = "" then none
  else if bulletStart s then
    let item := pyStripS (lstripBullets s)
    if item = "" then none else some item
  else none

/-- `f"0.\x7bn:02d\x7d.0"`-style two-digit zero padding. -/
def fmt02 (n : Nat) : String := if n < 10 then "0" ++ toString n else toString n

/-- `re.fullmatch(r"rust-v0\.(\d\x7b2\x7d)\.0", tag)`: the captured minor. -/
def tagMinor (tag : String) : Option Nat :=
  match tag.data with
  | 'r' :: 'u' :: 's' :: 't' :: '-' :: 'v' :: '0' :: '.' :: d1 :: d2 :: '.' :: '0' :: [] =>
      if d1.isDigit ∧ d2.isDigit then some ((d1.toNat - 48) * 10 + (d2.toNat - 48)) else none
  | _ => none

/-- Python-dict insertion for the `releases` map keyed by minor: an existing
key keeps its position and gets the new value (later duplicates overwrite). -/
def insertRelease (rel : List (Nat × Json)) (minor : Nat) (r : Json) : List (Nat × Json) :=
  match rel with
  | [] => [(minor, r)]
  | (k, v) :: rest =>
      if k = minor then (k, r) :: rest else (k, v) :: insertRelease rest minor r

/-- Lookup in the `releases` map. -/
def lookupRel (rel : List (Nat × Json)) (minor : Nat) : Option Json :=
  match rel with
  | [] => none
  | (k, v) :: rest => if k = minor then some v else lookupRel rest minor

/-- One step of the `releases`-building loop: keep a dict entry whose
`tag_name` fully matches `rust-v0.NN.0` with `NN` within the range. -/
def releaseStep (mn mx : Nat) (rel : List (Nat × Json)) (r : Json) : List (Nat × Json) :=
  match r with
  | Json.obj _ =>
    match tagMinor (pyStr (pyOrJ (jgetD r "tag_name") (Json.str ""))) with
    | some minor => if mn ≤ minor ∧ minor ≤ mx then insertRelease rel minor r else rel
    | none => rel
  | _ => rel

/-- The `releases` dict built from the fetched list. -/
def releasesFromData (data : List Json) (mn mx : Nat) : List (Nat × Json) :=
  data.foldl (releaseStep mn mx) []

/-- Insertion sort (ascending) for the minor keys, modelling `sorted(...)`. -/
def insertSorted (n : Nat) : List Nat → List Nat
  | [] => [n]
  | m :: rest => if n ≤ m then n :: m :: rest else m :: insertSorted n rest

/-- `sorted(releases)`: the keys in ascending order. -/
def sortedKeys (rel : List (Nat × Json)) : List Nat :=
  (rel.map Prod.fst).foldr insertSorted []

/-- `[m for m in range(min_minor, max_minor + 1) if m not in releases]`. -/
def missingMinors (mn mx : Nat) (rel : List (Nat × Json)) : List Nat :=
  (List.range' mn (mx + 1 - mn)).filter (fun m => (lookupRel rel m).isNone)

/-- The release's `html_url`, with the hard-coded fallback URL. -/
def releaseUrl (minor : Nat) (r : Json) : String :=
  pyStr (pyOrJ (jgetD r "html_url")
    (Json.str ("https://github.com/openai/codex/releases/tag/rust-v0." ++ fmt02 minor ++ ".0")))

/-- Date portion of `published_at` (`.split("T")[0]`), or the em-dash. -/
def publishedOf (r : Json) : String :=
  let s := String.mk ((pyStr (pyOrJ (jgetD r "published_at") (Json.str ""))).data.takeWhile
    (fun c => c ≠ 'T'))
  if s = "" then "—" else s

/-- The placeholder emitted when a release body has no bullets. -/
def noBulletsPlaceholder : String := "- (brak szczegółów w opisie release)"

/-- The lines the report loop emits for one release (header, bullets or the
placeholder, source line, blank line). -/
def releaseLines (minor : Nat) (r : Json) : List String :=
  let url := releaseUrl minor r
  let published := publishedOf r
  let body := pyStripS (pyStr (pyOrJ (jgetD r "body") (Json.str "")))
  let bullets := summarizeBulletsFromMarkdown body 8
  ("0." ++ fmt02 minor ++ ".0 (" ++ published ++ "):")
    :: (if bullets.isEmpty then [noBulletsPlaceholder]
        else bullets.map (fun b => "- " ++ b))
    ++ ["  Źródło: " ++ url, ""]

/-- The trailing note listing minors with no stable release. -/
def missingNote (missing : List Nat) : String :=
  "Brak stabilnych wydań w tym zakresie dla: " ++
    String.intercalate ", " (missing.map (fun m => "0." ++ fmt02 m ++ ".0"))

/-- All lines of the changelog report (before joining). -/
def codexTldrLines (lang : String) (mn mx : Nat) (rel : List (Nat × Json)) : List String :=
  let missing := missingMinors mn mx rel
  ["TL;DR: Codex CLI 0." ++ fmt02 mn ++ ".0 → 0." ++ fmt02 mx ++ ".0", ""]
  ++ (sortedKeys rel).flatMap (fun minor => releaseLines minor ((lookupRel rel minor).getD Json.null))
  ++ (if missing.isEmpty then [] else [missingNote missing, ""])
  ++ ["Źródła:", "- https://github.com/openai/codex/releases"]
  ++ (sortedKeys rel).map (fun minor => "- " ++ releaseUrl minor ((lookupRel rel minor).getD Json.null))
  ++ (if lang ≠ "pl" then ["", "(Uwaga: lang=" ++ lang ++ "; tryb TL;DR obecnie wypisuje po polsku.)"]
      else [])

/-- `"\n".join(lines).rstrip() + "\n"`. -/
def renderTldr (lang : String) (mn mx : Nat) (rel : List (Nat × Json)) : String :=
  pyRstripS (String.intercalate "\n" (codexTldrLines lang mn mx rel)) ++ "\n"

/-- `_maybe_codex_cli_changelog_tldr`.  The GitHub GET is the oracle
`github` (`.error` = the message `_http_get_json` passes to `_die`).  The
returned `Nat` counts the outbound GET requests made (0 or 1). -/
def maybeCodexCliChangelogTldr (query lang : String) (github : Except String Json) :
    Except String (Option String × Nat) :=
  let q := pyLowerS query
  if ¬ (containsS q "codex" ∧ containsS q "cli") then .ok (none, 0)
  else
    match extractCodexCliRange query with
    | none => .ok (none, 0)
    | some (mn, mx) =>
      if mx < mn then .ok (none, 0)
      else
        match github with
        | .error e => .error e
        | .ok data =>
          match data with
          | Json.arr items =>
            let rel := releasesFromData items mn mx
            if rel.isEmpty then .ok (none, 1)
            else .ok (some (renderTldr lang mn mx rel), 1)
          | _ => .ok (none, 1)

/-! ## Deep-search source merging -/

/-- Per-entry processing of the merge loop in `_deep_search_3x` (the
`isinstance` check, url/title extraction, empty-url skip and the
`title or url` default; the seen-url check is applied by the caller). -/
def sourceEntry (s : Json) : Option (String × String) :=
  match s with
  | Json.obj _ =>
    let url := pyStripS (pyStr (pyOrJ (jgetD s "url") (Json.str "")))
    let title := pyStripS (pyStr (pyOrJ (jgetD s "title") (Json.str "")))
    if url = "" then none else some (if title = "" then url else title, url)
  | _ => none

/-- Python iteration over a decoded-JSON value: lists yield elements, strings
yield one-character strings, dicts yield their keys; other (truthy) values
raise `TypeError` (`none`). -/
def pyIterate : Json → Option (List Json)
  | Json.arr xs => some xs
  | Json.str s => some (s.data.map (fun c => Json.str (String.mk [c])))
  | Json.obj kvs => some (kvs.map (fun kv => Json.str kv.1))
  | _ => none

/-- `step.get("sources") or []` followed by iteration (`none` = `TypeError`
crash on a truthy non-iterable value). -/
def sourceItems (step : Json) : Option (List Json) :=
  pyIterate (pyOrJ (jgetD step "sources") (Json.arr []))

/-- The merge loop of `_deep_search_3x` over the concatenated per-iteration
source items, threading the accumulated list and the `seen_urls` set. -/
def mergeLoop : List Json → List (String × String) → List String → List (String × String)
  | [], acc, _ => acc
  | s :: rest, acc, seen =>
    match sourceEntry s with
    | none => mergeLoop rest acc seen
    | some e => if e.2 ∈ seen then mergeLoop rest acc seen
                else mergeLoop rest (acc ++ [e]) (e.2 :: seen)

/-- The merged, deduplicated source list of the three iterations (`none` =
`TypeError` crash while iterating a truthy non-iterable `sources` value). -/
def mergeSources3 (s1 s2 s3 : Json) : Option (List (String × String)) :=
  match sourceItems s1, sourceItems s2, sourceItems s3 with
  | some l1, some l2, some l3 => some (mergeLoop (l1 ++ l2 ++ l3) [] [])
  | _, _, _ => none

/-- Specification-side first-occurrence-wins deduplication by url. -/
def dedupByUrl : List (String × String) → List String → List (String × String)
  | [], _ => []
  | e :: rest, seen =>
      if e.2 ∈ seen then dedupByUrl rest seen else e :: dedupByUrl rest (e.2 :: seen)

/-- The numbered source lines of the synthesis prompt
(`enumerate(sources[:12])`). -/
def numberedSourcesLines (sources : List (String × String)) : List String :=
  (sources.take 12).enum.map (fun p => "[" ++ toString (p.1 + 1) ++ "] " ++ p.2.1 ++ " — " ++ p.2.2)

/-! ## The `main` pipeline

`runMain` models one invocation of the program after successful argument
parsing (`argparse` guarantees `--mode` is one of auto/simple/deep and
`--max-results` an integer).  The outcome records the exit code, the lines
printed to stdout/stderr, and the number of GET/chat requests issued. -/

/-- Parsed command-line arguments. -/
structure Args where
  query : String
  maxResults : Int
  model : String
  lang : String
  mode : String
deriving Repr, DecidableEq

/-- Observable outcome of a run: exit code, printed output, request counts. -/
structure RunResult where
  exitCode : Nat
  stdout : List String
  stderr : List String
  getCalls : Nat
  chatCalls : Nat
deriving Repr, DecidableEq

/-- Abnormal termination: `_die` (exit 2 with a message) or an uncaught
exception (Python traceback, exit 1). -/
inductive Halt where
  | die (msg : String)
  | crash
deriving Repr, DecidableEq

/-- `j[k]` on a decoded-JSON value; `none` = KeyError/TypeError. -/
def jget (j : Json) (k : String) : Option Json :=
  match j with
  | .obj kvs => lookupStr kvs k
  | _ => none

/-- Python `len()`: lists, strings and dicts have a length; other values
raise `TypeError` (`none`). -/
def pyLen : Json → Option Nat
  | .arr xs => some xs.length
  | .str s => some s.data.length
  | .obj kvs => some kvs.length
  | _ => none

/-- Python `x[i]` for a natural index: list element, one-character string of
a string; anything else (including dicts, whose keys here are strings)
raises (`none`). -/
def pyIndexNat : Json → Nat → Option Json
  | .arr xs, i => xs.get? i
  | .str s, i => (s.data.get? i).map (fun c => Json.str (String.mk [c]))
  | _, _ => none

/-- Prefix of the `_die` message for an unexpected chat-response schema (the
pretty-printed response body appended by the source is not modelled). -/
def schemaErrMsg : String := "Unexpected OpenRouter response schema"

/-- `data["choices"][0]["message"]["content"]` followed by `str(...)`;
`none` = any exception on the way (caught by the source, which dies). -/
def contentOf (data : Json) : Option String :=
  match jget data "choices" with
  | some (Json.arr (x :: _)) =>
    match jget x "message" with
    | some msg =>
      match jget msg "content" with
      | some content => some (pyStr content)
      | none => none
    | none => none
  | _ => none

/-- One chat-completion request plus content extraction, as done by
`_openrouter_web_search` (and identically by the json-plan variant):
the result carries the updated chat-call count. -/
def webSearchRun (chat : Nat → Except String Json) (n : Nat) :
    Except (String × Nat) (String × Nat) :=
  match chat n with
  | .error e => .error (e, n + 1)
  | .ok data =>
    match contentOf data with
    | none => .error (schemaErrMsg, n + 1)
    | some c => .ok (c, n + 1)

/-- `_openrouter_web_search_json_plan`: one request, content extraction and
the structured post-processing. -/
def planRun (chat : Nat → Except String Json) (n : Nat) :
    Except (String × Nat) (Json × Nat) :=
  match webSearchRun chat n with
  | .error p => .error p
  | .ok (c, n') => .ok (jsonPlanFromContent c, n')

/-- `_deep_search_3x`: three structured passes, the source merge and the
synthesis call.  Crashes (`TypeError` on a truthy non-iterable
`followup_queries`/`sources` value) surface as `Halt.crash`. -/
def deepRun (query : String) (chat : Nat → Except String Json) :
    Except (Halt × Nat) (String × Nat) :=
  match planRun chat 0 with
  | .error (e, n) => .error (.die e, n)
  | .ok (step1, n1) =>
    let fv := pyOrJ (jgetD step1 "followup_queries") (Json.arr [])
    match pyLen fv with
    | none => .error (.crash, n1)
    | some len =>
      match (if 1 ≤ len then (pyIndexNat fv 0).map pyStr else some (query ++ " szczegóły")) with
      | none => .error (.crash, n1)
      | some _q2 =>
        match (if 2 ≤ len then (pyIndexNat fv 1).map pyStr
               else some (query ++ " kontekst i źródła")) with
        | none => .error (.crash, n1)
        | some _q3 =>
          match planRun chat n1 with
          | .error (e, n) => .error (.die e, n)
          | .ok (step2, n2) =>
            match planRun chat n2 with
            | .error (e, n) => .error (.die e, n)
            | .ok (step3, n3) =>
              match mergeSources3 step1 step2 step3 with
              | none => .error (.crash, n3)
              | some merged =>
                let _numbered := String.intercalate "\n" (numberedSourcesLines merged)
                match webSearchRun chat n3 with
                | .error (e, n) => .error (.die e, n)
                | .ok (c, n4) => .ok (pyRstripS c ++ "\n", n4)

/-- The two-option menu printed for an ambiguous "complex" query. -/
def menuText : String :=
  "To wygląda na pytanie średnie/trudne. Wybierz tryb wyszukiwania:\n\n" ++
  "a) Proste wyszukanie (1 raz) — odpisz: `proste` albo uruchom z `--mode simple`\n" ++
  "b) Seria 3 wyszukań (zgłębianie) + synteza — odpisz: `seria` albo uruchom z `--mode deep`\n"

/-- The `_die` message for a missing API key. -/
def missingKeyMsg : String := "Missing OPENROUTER_API_KEY in environment."

/-- The `_die` message for an out-of-range `--max-results`. -/
def maxResultsMsg : String := "--max-results must be between 1 and 20"

/-- Truthiness of the API-key environment variable. -/
def keyTruthy : Option String → Bool
  | none => false
  | some s => s != ""

/-- Final dispatch on the resolved mode (the source treats every non-"deep"
resolved mode as simple).  `g` is the GET count inherited from the changelog
check. -/
def dispatchMode (mode : String) (query : String) (g : Nat)
    (chat : Nat → Except String Json) : RunResult :=
  if mode = "deep" then
    match deepRun query chat with
    | .ok (ans, n) => ⟨0, [ans], [], g, n⟩
    | .error (.die e, n) => ⟨2, [], [e], g, n⟩
    | .error (.crash, n) => ⟨1, [], ["Traceback (most recent call last)"], g, n⟩
  else
    match webSearchRun chat 0 with
    | .ok (c, n) => ⟨0, [pyRstripS c ++ "\n"], [], g, n⟩
    | .error (e, n) => ⟨2, [], [e], g, n⟩

/-- `main` from the API-key check onward (reached when the changelog
short-circuit produced no truthy report). -/
def afterKey (args : Args) (apiKey : Option String) (g : Nat)
    (chat : Nat → Except String Json) : RunResult :=
  if keyTruthy apiKey = false then ⟨2, [], [missingKeyMsg], g, 0⟩
  else
    if args.mode = "auto" then
      match explicitDepthIntent args.query with
      | some m => dispatchMode m args.query g chat
      | none =>
        if classifyQuery args.query = "complex" then ⟨0, [menuText], [], g, 0⟩
        else dispatchMode "simple" args.query g chat
    else dispatchMode args.mode args.query g chat

/-- `main`: validation, changelog short-circuit, API-key check, mode
resolution and dispatch. -/
def runMain (args : Args) (apiKey : Option String) (github : Except String Json)
    (chat : Nat → Except String Json) : RunResult :=
  if args.maxResults < 1 ∨ args.maxResults > 20 then
    ⟨2, [], [maxResultsMsg], 0, 0⟩
  else
    match maybeCodexCliChangelogTldr args.query args.lang github with
    | .error e => ⟨2, [], [e], 1, 0⟩
    | .ok (tldr, g) =>
      match tldr with
      | some s => if s ≠ "" then ⟨0, [s], [], g, 0⟩ else afterKey args apiKey g chat
      | none => afterKey args apiKey g chat

/-! # Helper lemmas -/

/-- A successful version-pattern match consumes at least the four matched
characters. -/
theorem matchCodexAt_length {cs : List Char} {m : Nat} {rest : List Char}
    (h : matchCodexAt cs = some (m, rest)) : rest.length < cs.length := by
  unfold matchCodexAt at h
  split at h
  · split_ifs at h with hd
    split at h
    · split_ifs at h with hdig
      · simp only [Option.some.injEq, Prod.mk.injEq] at h
        obtain ⟨h1, h2⟩ := h
        subst h2
        rename_i _ rest2
        have hle := (List.dropWhile_sublist (p := Char.isDigit) (l := rest2)).length_le
        simp only [List.length_cons]
        omega
      · simp only [Option.some.injEq, Prod.mk.injEq] at h
        obtain ⟨h1, h2⟩ := h
        subst h2
        simp only [List.length_cons]
        omega
    · simp only [Option.some.injEq, Prod.mk.injEq] at h
      obtain ⟨h1, h2⟩ := h
      subst h2
      simp only [List.length_cons]
      omega
  · exact absurd h (by simp)

/-- Any fuel of at least the input length computes the same minor list. -/
theorem scanMinorsF_fuel :
    ∀ fuel1 fuel2 cs, cs.length ≤ fuel1 → cs.length ≤ fuel2 →
      scanMinorsF fuel1 cs = scanMinorsF fuel2 cs := by
  intro fuel1
  induction fuel1 with
  | zero =>
    intro fuel2 cs h1 _
    have hnil : cs = [] := List.length_eq_zero.mp (Nat.le_zero.mp h1)
    subst hnil
    cases fuel2 <;> simp [scanMinorsF, matchCodexAt]
  | succ f1 ih =>
    intro fuel2 cs h1 h2
    match cs with
    | [] =>
      cases fuel2 <;> simp [scanMinorsF, matchCodexAt]
    | c :: t =>
      match fuel2 with
      | 0 => exact absurd h2 (by simp)
      | Nat.succ f2 =>
        simp only [scanMinorsF]
        match hm : matchCodexAt (c :: t) with
        | some (m, rest) =>
          have hlen := matchCodexAt_length hm
          simp only [List.length_cons] at h1 h2 hlen
          dsimp only
          rw [ih f2 rest (by omega) (by omega)]
        | none =>
          simp only [List.length_cons] at h1 h2
          dsimp only
          exact ih f2 t (by omega) (by omega)

/-- Folding `min` from a start below the `max` start stays below. -/
theorem foldl_min_le_foldl_max (ms : List Nat) :
    ∀ a b : Nat, a ≤ b → ms.foldl Nat.min a ≤ ms.foldl Nat.max b := by
  induction ms with
  | nil => intro a b h; simpa using h
  | cons m t ih =>
    intro a b h
    exact ih _ _ (le_trans (Nat.min_le_left a m) (le_trans h (Nat.le_max_left b m)))

/-! # Claims -/

/-- C3: for every query string, the classifier follows exactly this order:
tokenize on whitespace; with at most 6 tokens it returns "banal" regardless
of keyword content; otherwise with a complexity-marker substring in the
lowercased query it returns "complex"; otherwise with at least 12 tokens it
returns "complex"; otherwise it returns "banal". -/
theorem classifyQuery_follows_order (query : String) :
    (queryTokenCount query ≤ 6 → classifyQuery query = "banal") ∧
    (6 < queryTokenCount query → hasComplexityMarker query = true →
      classifyQuery query = "complex") ∧
    (6 < queryTokenCount query → hasComplexityMarker query = false →
      12 ≤ queryTokenCount query → classifyQuery query = "complex") ∧
    (6 < queryTokenCount query → hasComplexityMarker query = false →
      queryTokenCount query < 12 → classifyQuery query = "banal") := by
  have hq : classifyQuery query =
      (if queryTokenCount query ≤ 6 then "banal"
       else if hasComplexityMarker query then "complex"
       else if 12 ≤ queryTokenCount query then "complex" else "banal") := rfl
  refine ⟨?_, ?_, ?_, ?_⟩ <;> intros <;> rw [hq] <;> split_ifs <;> simp_all <;> omega

/-- C3 witness: the spec's example query has 7 tokens and a marker, so the
second branch fires. -/
theorem classifyQuery_follows_order_witness :
    6 < queryTokenCount "porównaj wady i zalety X i Y" ∧
    classifyQuery "porównaj wady i zalety X i Y" = "complex" :=
  ⟨by decide,
   (classifyQuery_follows_order "porównaj wady i zalety X i Y").2.1 (by decide) (by decide)⟩

/-- C4: version-range extraction scans the query for all substrings matching
`0.NN` or `0.NN.M` and returns (minimum minor, maximum minor); no match
yields the no-match signal; every returned range satisfies min ≤ max; and
the three documented examples hold. -/
theorem extractCodexCliRange_spec :
    (∀ q a b, extractCodexCliRange q = some (a, b) → a ≤ b) ∧
    extractCodexCliRange "0.80-0.87 cli codex" = some (80, 87) ∧
    extractCodexCliRange "codex cli 0.87" = some (87, 87) ∧
    extractCodexCliRange "no numbers here" = none := by
  refine ⟨?_, by decide, by decide, by decide⟩
  intro q a b h
  unfold extractCodexCliRange at h
  split at h
  · exact absurd h (by simp)
  · simp only [Option.some.injEq, Prod.mk.injEq] at h
    obtain ⟨h1, h2⟩ := h
    subst h1
    subst h2
    exact foldl_min_le_foldl_max _ _ _ (le_refl _)

/-- C4 witness: the general min ≤ max bound at the first documented input. -/
theorem extractCodexCliRange_spec_witness : (80 : Nat) ≤ 87 :=
  extractCodexCliRange_spec.1 "0.80-0.87 cli codex" 80 87 (by decide)

/-- C5: the explicit depth-intent detector returns "deep" whenever a
deep-intent keyword occurs in the lowercased query (even if a simple-intent
keyword also occurs), "simple" only when no deep-intent keyword occurs but a
simple-intent keyword does, and the absent signal otherwise. -/
theorem explicitDepthIntent_priority (query : String) :
    (hasDeepIntentKeyword query = true → explicitDepthIntent query = some "deep") ∧
    (hasDeepIntentKeyword query = false → hasSimpleIntentKeyword query = true →
      explicitDepthIntent query = some "simple") ∧
    (hasDeepIntentKeyword query = false → hasSimpleIntentKeyword query = false →
      explicitDepthIntent query = none) := by
  have hq : explicitDepthIntent query =
      (if hasDeepIntentKeyword query then some "deep"
       else if hasSimpleIntentKeyword query then some "simple"
       else none) := rfl
  refine ⟨?_, ?_, ?_⟩ <;> intros <;> rw [hq] <;> simp_all

/-- C5 witness: a query containing both a deep keyword and a simple keyword
resolves to "deep". -/
theorem explicitDepthIntent_priority_witness :
    hasSimpleIntentKeyword "deep and basic research" = true ∧
    explicitDepthIntent "deep and basic research" = some "deep" :=
  ⟨by decide, (explicitDepthIntent_priority "deep and basic research").1 (by decide)⟩

/-- Association lookup distributes over append. -/
theorem lookupStr_append (a b : List (String × Json)) (k : String) :
    lookupStr (a ++ b) k =
      (match lookupStr a k with
       | some v => some v
       | none => lookupStr b k) := by
  induction a with
  | nil => simp [lookupStr]
  | cons kv rest ih =>
    obtain ⟨k', v'⟩ := kv
    by_cases h : k' = k <;> simp [lookupStr, h, ih]

/-- `setdefault` keeps the object shape. -/
theorem setdefault_obj (kvs : List (String × Json)) (k : String) (v : Json) :
    ∃ kvs', setdefault (Json.obj kvs) k v = Json.obj kvs' := by
  unfold setdefault
  match h : lookupStr kvs k with
  | some x => exact ⟨kvs, by simp [h]⟩
  | none => exact ⟨kvs ++ [(k, v)], by simp [h]⟩

/-- After `setdefault k v`, the key `k` maps to its old value or `v`. -/
theorem jget_setdefault_same (kvs : List (String × Json)) (k : String) (v : Json) :
    jget (setdefault (Json.obj kvs) k v) k = some ((lookupStr kvs k).getD v) := by
  unfold setdefault jget
  match h : lookupStr kvs k with
  | some x => simp [h]
  | none =>
    simp only [h]
    rw [lookupStr_append]
    simp [h, lookupStr]

/-- `setdefault k v` leaves every other key unchanged. -/
theorem jget_setdefault_other (kvs : List (String × Json)) (k k' : String) (v : Json)
    (hne : k ≠ k') :
    jget (setdefault (Json.obj kvs) k v) k' = lookupStr kvs k' := by
  unfold setdefault jget
  match h : lookupStr kvs k with
  | some x => simp [h]
  | none =>
    simp only [h]
    rw [lookupStr_append]
    cases h' : lookupStr kvs k' <;> simp [h', lookupStr, hne]

/-- The extraction returns only JSON objects. -/
theorem extractFirstJsonObject_is_obj {text : String} {j : Json}
    (h : extractFirstJsonObject text = some j) : ∃ kvs, j = Json.obj kvs := by
  unfold extractFirstJsonObject at h
  dsimp only at h
  split at h
  · exact absurd h (by simp)
  · split at h
    · exact absurd h (by simp)
    · split at h
      · rename_i kvs _
        exact ⟨kvs, by injection h with h'; exact h'.symm⟩
      · exact absurd h (by simp)

/-- The plan post-processing is three `setdefault`s over some object base. -/
theorem jsonPlanFromContent_base (content : String) :
    ∃ kvs0, jsonPlanFromContent content =
      setdefault (setdefault (setdefault (Json.obj kvs0) "tldr_bullets" (Json.arr []))
        "sources" (Json.arr [])) "followup_queries" (Json.arr []) ∧
      (∀ kvs, extractFirstJsonObject content = some (Json.obj kvs) → ∀ k : String,
        lookupStr kvs k = none → lookupStr kvs0 k = none) ∧
      (extractFirstJsonObject content = none → kvs0 = []) := by
  unfold jsonPlanFromContent
  match hx : extractFirstJsonObject content with
  | none => exact ⟨[], rfl, by intro kvs hk; exact absurd hk (by simp), fun _ => rfl⟩
  | some j =>
    obtain ⟨kvs, rfl⟩ := extractFirstJsonObject_is_obj hx
    by_cases ht : pyTruthy (Json.obj kvs) = true
    · refine ⟨kvs, by simp [ht], ?_, by simp⟩
      intro kvs' hk k hlk
      injection hk with hk'
      injection hk' with hk''
      rwa [hk'']
    · refine ⟨[], by simp [ht], ?_, by simp⟩
      intro kvs' hk k hlk
      simp [lookupStr]

/-- C1: for every assistant-reply text, the structured single-pass plan never
fails: the result is always a dict with the three keys `tldr_bullets`,
`sources`, `followup_queries` present; when extraction fails (or the object
is absent) the result is the empty object with the three defaults; fields
missing from the extracted object are defaulted to empty lists; and the
first balanced brace-delimited object is extracted out of surrounding
prose. -/
theorem jsonPlanFromContent_total (content : String) :
    (jget (jsonPlanFromContent content) "tldr_bullets").isSome = true ∧
    (jget (jsonPlanFromContent content) "sources").isSome = true ∧
    (jget (jsonPlanFromContent content) "followup_queries").isSome = true ∧
    (∃ kvs, jsonPlanFromContent content = Json.obj kvs) ∧
    (extractFirstJsonObject content = none →
      jsonPlanFromContent content =
        Json.obj [("tldr_bullets", Json.arr []), ("sources", Json.arr []),
                  ("followup_queries", Json.arr [])]) ∧
    (∀ kvs, extractFirstJsonObject content = some (Json.obj kvs) →
      ∀ k, k ∈ (["tldr_bullets", "sources", "followup_queries"] : List String) →
        lookupStr kvs k = none →
        jget (jsonPlanFromContent content) k = some (Json.arr [])) ∧
    extractFirstJsonObject "prose \x7b\"sources\": [\x7b\"url\": \"https://e\"\x7d]\x7d more"
      = some (Json.obj [("sources", Json.arr [Json.obj [("url", Json.str "https://e")]])]) := by
  obtain ⟨kvs0, hplan, hmiss, hnone⟩ := jsonPlanFromContent_base content
  obtain ⟨kvs1, h1⟩ := setdefault_obj kvs0 "tldr_bullets" (Json.arr [])
  obtain ⟨kvs2, h2⟩ := setdefault_obj kvs1 "sources" (Json.arr [])
  have key3 : jget (jsonPlanFromContent content) "followup_queries" =
      some ((lookupStr kvs2 "followup_queries").getD (Json.arr [])) := by
    rw [hplan, h1, h2, jget_setdefault_same]
  have key2 : jget (jsonPlanFromContent content) "sources" =
      some ((lookupStr kvs1 "sources").getD (Json.arr [])) := by
    rw [hplan, h1, h2, jget_setdefault_other _ _ _ _ (by decide)]
    rw [← jget, show (Json.obj kvs2) = setdefault (Json.obj kvs1) "sources" (Json.arr []) from h2.symm,
      jget_setdefault_same]
  have key1 : ∀ k : String, k ≠ "sources" → k ≠ "followup_queries" →
      jget (jsonPlanFromContent content) k =
        some ((lookupStr kvs0 k).getD (Json.arr [])) ∨
      (jget (jsonPlanFromContent content) k = lookupStr kvs0 k ∧ k ≠ "tldr_bullets") := by
    intro k hs hf
    by_cases hk : k = "tldr_bullets"
    · subst hk
      left
      rw [hplan, h1, h2, jget_setdefault_other _ _ _ _ (Ne.symm hf)]
      rw [← jget, show (Json.obj kvs2) = setdefault (Json.obj kvs1) "sources" (Json.arr []) from h2.symm,
        jget_setdefault_other _ _ _ _ (Ne.symm hs)]
      rw [← jget, show (Json.obj kvs1) =
          setdefault (Json.obj kvs0) "tldr_bullets" (Json.arr []) from h1.symm,
        jget_setdefault_same]
    · right
      refine ⟨?_, hk⟩
      rw [hplan, h1, h2, jget_setdefault_other _ _ _ _ (Ne.symm hf)]
      rw [← jget, show (Json.obj kvs2) = setdefault (Json.obj kvs1) "sources" (Json.arr []) from h2.symm,
        jget_setdefault_other _ _ _ _ (Ne.symm hs)]
      rw [← jget, show (Json.obj kvs1) =
          setdefault (Json.obj kvs0) "tldr_bullets" (Json.arr []) from h1.symm,
        jget_setdefault_other _ _ _ _ (fun he => hk he.symm)]
  refine ⟨?_, ?_, ?_, ?_, ?_, ?_, by rfl⟩
  · rcases key1 "tldr_bullets" (by decide) (by decide) with h | ⟨_, hne⟩
    · simp [h]
    · exact absurd rfl hne
  · simp [key2]
  · simp [key3]
  · rw [hplan, h1, h2]
    exact setdefault_obj kvs2 "followup_queries" (Json.arr [])
  · intro hx
    rw [hplan, hnone hx]
    rfl
  · intro kvs hx k hk hlk
    have h0 : lookupStr kvs0 k = none := hmiss kvs hx k hlk
    fin_cases hk
    · rcases key1 "tldr_bullets" (by decide) (by decide) with h | ⟨_, hne⟩
      · rw [h, h0]
        rfl
      · exact absurd rfl hne
    · have hchain : lookupStr kvs1 "sources" = none := by
        have := jget_setdefault_other kvs0 "tldr_bullets" "sources" (Json.arr []) (by decide)
        rw [h1] at this
        rw [show lookupStr kvs1 "sources" = jget (Json.obj kvs1) "sources" from rfl, this, h0]
      rw [key2, hchain]
      rfl
    · have hc1 : lookupStr kvs1 "followup_queries" = none := by
        have := jget_setdefault_other kvs0 "tldr_bullets" "followup_queries" (Json.arr []) (by decide)
        rw [h1] at this
        rw [show lookupStr kvs1 "followup_queries" =
          jget (Json.obj kvs1) "followup_queries" from rfl, this, h0]
      have hc2 : lookupStr kvs2 "followup_queries" = none := by
        have := jget_setdefault_other kvs1 "sources" "followup_queries" (Json.arr []) (by decide)
        rw [h2] at this
        rw [show lookupStr kvs2 "followup_queries" =
          jget (Json.obj kvs2) "followup_queries" from rfl, this, hc1]
      rw [key3, hc2]
      rfl

/-- C1 witness: prose without braces yields the defaulted empty object. -/
theorem jsonPlanFromContent_total_witness :
    jsonPlanFromContent "no braces at all" =
      Json.obj [("tldr_bullets", Json.arr []), ("sources", Json.arr []),
                ("followup_queries", Json.arr [])] :=
  (jsonPlanFromContent_total "no braces at all").2.2.2.2.1 rfl

/-- The merge loop equals first-occurrence-wins deduplication of the valid
entries appended to the accumulator. -/
theorem mergeLoop_eq_dedup :
    ∀ (xs : List Json) (acc : List (String × String)) (seen : List String),
      mergeLoop xs acc seen = acc ++ dedupByUrl (xs.filterMap sourceEntry) seen := by
  intro xs
  induction xs with
  | nil => intro acc seen; simp [mergeLoop, dedupByUrl]
  | cons s rest ih =>
    intro acc seen
    simp only [mergeLoop, List.filterMap_cons]
    match h : sourceEntry s with
    | none => exact ih acc seen
    | some e =>
      simp only [dedupByUrl]
      by_cases hs : e.2 ∈ seen
      · rw [if_pos hs, if_pos hs, ih]
      · rw [if_neg hs, if_neg hs, ih]
        simp

/-- Entries produced by the deduplication were not previously seen. -/
theorem dedupByUrl_not_seen :
    ∀ (xs : List (String × String)) (seen : List String) (e : String × String),
      e ∈ dedupByUrl xs seen → e.2 ∉ seen := by
  intro xs
  induction xs with
  | nil => intro seen e he; simp [dedupByUrl] at he
  | cons x rest ih =>
    intro seen e he
    simp only [dedupByUrl] at he
    by_cases hs : x.2 ∈ seen
    · rw [if_pos hs] at he
      exact ih seen e he
    · rw [if_neg hs] at he
      rcases List.mem_cons.mp he with h | h
      · subst h; exact hs
      · intro hmem
        exact ih (x.2 :: seen) e h (List.mem_cons_of_mem _ hmem)

/-- The deduplicated list has pairwise distinct urls. -/
theorem dedupByUrl_pairwise :
    ∀ (xs : List (String × String)) (seen : List String),
      (dedupByUrl xs seen).Pairwise (fun a b => a.2 ≠ b.2) := by
  intro xs
  induction xs with
  | nil => intro seen; simp [dedupByUrl]
  | cons x rest ih =>
    intro seen
    simp only [dedupByUrl]
    by_cases hs : x.2 ∈ seen
    · rw [if_pos hs]; exact ih seen
    · rw [if_neg hs]
      refine List.Pairwise.cons ?_ (ih (x.2 :: seen))
      intro b hb heq
      exact dedupByUrl_not_seen rest (x.2 :: seen) b hb (heq ▸ List.mem_cons_self _ _)

/-- Deduplication only keeps entries of the input. -/
theorem dedupByUrl_subset :
    ∀ (xs : List (String × String)) (seen : List String) (e : String × String),
      e ∈ dedupByUrl xs seen → e ∈ xs := by
  intro xs
  induction xs with
  | nil => intro seen e he; simp [dedupByUrl] at he
  | cons x rest ih =>
    intro seen e he
    simp only [dedupByUrl] at he
    by_cases hs : x.2 ∈ seen
    · rw [if_pos hs] at he
      exact List.mem_cons_of_mem _ (ih seen e he)
    · rw [if_neg hs] at he
      rcases List.mem_cons.mp he with h | h
      · exact h ▸ List.mem_cons_self _ _
      · exact List.mem_cons_of_mem _ (ih _ e h)

/-- A valid source entry has a non-empty url. -/
theorem sourceEntry_url_ne {s : Json} {e : String × String}
    (h : sourceEntry s = some e) : e.2 ≠ "" := by
  unfold sourceEntry at h
  split at h
  · dsimp only at h
    split_ifs at h with hu ht
    · injection h with h'
      subst h'
      exact hu
    · injection h with h'
      subst h'
      exact hu
  · exact absurd h (by simp)

/-- C2: in deep mode the three iterations' sources are merged deduplicated by
url — first occurrence wins, in iteration order with within-iteration order
preserved (the merged list equals spec-side first-wins deduplication of the
concatenated valid entries) — so the merged list has no duplicate urls,
every entry has a non-empty url, and the numbered source list of the
synthesis prompt is truncated to the first 12 entries. -/
theorem deepMerge_dedup_by_url (s1 s2 s3 : Json) (merged : List (String × String))
    (h : mergeSources3 s1 s2 s3 = some merged) :
    merged = dedupByUrl ((((sourceItems s1).getD []) ++ ((sourceItems s2).getD []) ++
      ((sourceItems s3).getD [])).filterMap sourceEntry) [] ∧
    merged.Pairwise (fun a b => a.2 ≠ b.2) ∧
    (∀ e ∈ merged, e.2 ≠ "") ∧
    (numberedSourcesLines merged).length ≤ 12 ∧
    numberedSourcesLines merged = numberedSourcesLines (merged.take 12) := by
  unfold mergeSources3 at h
  have hmerged : merged = dedupByUrl ((((sourceItems s1).getD []) ++ ((sourceItems s2).getD []) ++
      ((sourceItems s3).getD [])).filterMap sourceEntry) [] := by
    match h1 : sourceItems s1, h2 : sourceItems s2, h3 : sourceItems s3 with
    | some l1, some l2, some l3 =>
      rw [h1, h2, h3] at h
      dsimp only at h
      injection h with h'
      rw [← h', mergeLoop_eq_dedup]
      simp
    | none, _, _ => rw [h1] at h; dsimp only at h; exact absurd h (by simp)
    | some l1, none, _ => rw [h1, h2] at h; dsimp only at h; exact absurd h (by simp)
    | some l1, some l2, none => rw [h1, h2, h3] at h; dsimp only at h; exact absurd h (by simp)
  refine ⟨hmerged, ?_, ?_, ?_, ?_⟩
  · rw [hmerged]; exact dedupByUrl_pairwise _ _
  · intro e he
    rw [hmerged] at he
    obtain ⟨s, _, hse⟩ := List.mem_filterMap.mp (dedupByUrl_subset _ _ _ he)
    exact sourceEntry_url_ne hse
  · simp [numberedSourcesLines, List.length_take]
  · simp [numberedSourcesLines, List.take_take]

/-- C2 witness: three concrete iterations with an overlapping url merge into
a duplicate-free list. -/
theorem deepMerge_dedup_by_url_witness :
    ([(("A" : String), ("https://a" : String)),
      ("https://b", "https://b")] : List (String × String)).Pairwise
        (fun a b => a.2 ≠ b.2) :=
  (deepMerge_dedup_by_url
    (Json.obj [("sources", Json.arr
      [Json.obj [("url", Json.str "https://a"), ("title", Json.str "A")],
       Json.obj [("url", Json.str "https://b")]])])
    (Json.obj [("sources", Json.arr
      [Json.obj [("url", Json.str "https://a"), ("title", Json.str "A2")]])])
    (Json.obj [("sources", Json.arr [])])
    _ rfl).2.1

/-- `String` append acts as append on the underlying character lists. -/
theorem string_data_append (a b : String) : (a ++ b).data = a.data ++ b.data := rfl

/-- Strings with different first characters differ. -/
theorem ne_of_head {a b : String} (h : a.data.head? ≠ b.data.head?) : a ≠ b :=
  fun he => h (by rw [he])

/-- The bullet-collecting loop is `take` of the per-line extraction, as long
as the accumulator is still below the limit. -/
theorem summarizeGo_eq (limit : Nat) :
    ∀ (lines : List String) (acc : List String), acc.length < limit →
      summarizeGo limit lines acc =
        acc ++ (lines.filterMap bulletItem).take (limit - acc.length) := by
  intro lines
  induction lines with
  | nil => intro acc h; simp [summarizeGo]
  | cons line rest ih =>
    intro acc h
    simp only [summarizeGo, List.filterMap_cons]
    by_cases hs : pyStripS line = ""
    · rw [if_pos hs]
      have hb : bulletItem line = none := by simp [bulletItem, hs]
      rw [hb, ih acc h]
    · rw [if_neg hs]
      by_cases hbs : bulletStart (pyStripS line) = true
      · rw [if_pos hbs]
        by_cases hit : pyStripS (lstripBullets (pyStripS line)) = ""
        · rw [if_pos hit]
          have hb : bulletItem line = none := by simp [bulletItem, hs, hbs, hit]
          rw [hb, ih acc h]
        · rw [if_neg hit]
          have hb : bulletItem line = some (pyStripS (lstripBullets (pyStripS line))) := by
            simp [bulletItem, hs, hbs, hit]
          rw [hb]
          dsimp only
          by_cases hlim : limit ≤ (acc ++ [pyStripS (lstripBullets (pyStripS line))]).length

          · rw [if_pos hlim]
            simp only [List.length_append, List.length_cons, List.length_nil] at hlim
            have hone : limit - acc.length = 1 := by omega
            rw [hone]
            simp [List.take_succ_cons]
          · rw [if_neg hlim]
            simp only [List.length_append, List.length_cons, List.length_nil] at hlim
            rw [ih _ (by simp; omega)]
            have hsucc : limit - acc.length = (limit - (acc.length + 1)) + 1 := by omega
            rw [hsucc, List.take_succ_cons]
            simp
      · rw [if_neg hbs]
        have hb : bulletItem line = none := by simp [bulletItem, hs, hbs]
        rw [hb, ih acc h]

/-- C8: bullet extraction returns the trimmed contents of `-`/`*` lines
capped at 8; a body with 15 bullet lines yields exactly the first 8 in
order; a body with no bullet lines yields an empty extraction, and in that
case the changelog report emits exactly one placeholder line for the
release. -/
theorem summarizeBullets_cap (body : String) :
    summarizeBulletsFromMarkdown body 8 = ((pySplitlines body).filterMap bulletItem).take 8 ∧
    (∀ (minor : Nat) (r : Json),
      summarizeBulletsFromMarkdown (pyStripS (pyStr (pyOrJ (jgetD r "body") (Json.str "")))) 8
        = [] →
      (releaseLines minor r).count noBulletsPlaceholder = 1) ∧
    summarizeBulletsFromMarkdown
        "- b01\n- b02\n- b03\n- b04\n- b05\n- b06\n- b07\n- b08\n- b09\n- b10\n- b11\n- b12\n- b13\n- b14\n- b15"
        8 =
      ["b01", "b02", "b03", "b04", "b05", "b06", "b07", "b08"] ∧
    summarizeBulletsFromMarkdown "plain text\nanother line" 8 = [] := by
  refine ⟨?_, ?_, by decide, by decide⟩
  · unfold summarizeBulletsFromMarkdown
    rw [summarizeGo_eq 8 _ [] (by decide)]
    simp
  · intro minor r hempty
    have hheader : ("0." ++ fmt02 minor ++ ".0 (" ++ publishedOf r ++ "):") ≠
        noBulletsPlaceholder := by
      apply ne_of_head
      simp [string_data_append, noBulletsPlaceholder]
    have hsrc : ("  Źródło: " ++ releaseUrl minor r) ≠ noBulletsPlaceholder := by
      apply ne_of_head
      simp [string_data_append, noBulletsPlaceholder]
    have hblank : ("" : String) ≠ noBulletsPlaceholder := by decide
    unfold releaseLines
    dsimp only
    rw [hempty]
    simp [List.count_cons, hheader, hsrc, hblank]

/-- C8 witness: a release whose body has no bullet lines gets exactly one
placeholder line in its report section. -/
theorem summarizeBullets_cap_witness :
    (releaseLines 83 (Json.obj [("tag_name", Json.str "rust-v0.83.0")])).count
      noBulletsPlaceholder = 1 :=
  (summarizeBullets_cap "").2.1 83 (Json.obj [("tag_name", Json.str "rust-v0.83.0")]) (by decide)

/-- C9: a minor is in the missing list iff it lies in the requested range
and is absent from the fetched release set; the missing list is ascending;
the (80,83) example with fetched minors 80 and 83 reports 81 and 82, whose
note appears in the rendered report. -/
theorem missingMinors_reported (mn mx : Nat) (rel : List (Nat × Json)) :
    (∀ m, m ∈ missingMinors mn mx rel ↔ (mn ≤ m ∧ m ≤ mx ∧ lookupRel rel m = none)) ∧
    (missingMinors mn mx rel).Pairwise (· < ·) ∧
    missingMinors 80 83 [(80, Json.obj []), (83, Json.obj [])] = [81, 82] ∧
    missingNote [81, 82] = "Brak stabilnych wydań w tym zakresie dla: 0.81.0, 0.82.0" ∧
    (maybeCodexCliChangelogTldr "codex cli 0.80-0.83" "pl"
        (.ok (Json.arr
          [Json.obj [("tag_name", Json.str "rust-v0.80.0")],
           Json.obj [("tag_name", Json.str "rust-v0.83.0")]]))).map
      (fun p => p.1.map (fun s => containsS s (missingNote [81, 82]))) = .ok (some true) := by
  refine ⟨?_, ?_, by decide, by rfl, by rfl⟩
  · intro m
    unfold missingMinors
    rw [List.mem_filter, List.mem_range'_1]
    constructor
    · rintro ⟨⟨h1, h2⟩, h3⟩
      exact ⟨h1, by omega, by simpa using h3⟩
    · rintro ⟨h1, h2, h3⟩
      exact ⟨⟨h1, by omega⟩, by simp [h3]⟩
  · exact (List.pairwise_lt_range' mn _).filter _

/-- C9 witness: 81 is reported missing for range (80,83) with fetched
minors 80 and 83. -/
theorem missingMinors_reported_witness :
    81 ∈ missingMinors 80 83 [(80, Json.obj []), (83, Json.obj [])] :=
  ((missingMinors_reported 80 83 [(80, Json.obj []), (83, Json.obj [])]).1 81).mpr
    ⟨by decide, by decide, rfl⟩

/-- C6 counterexample: at a run satisfying every condition of the claim
(mode auto, changelog no-match, no explicit intent, classifier "complex")
but with the API key unset, the program dies with exit code 2 before
printing the menu — the claim's "exit code 0 and menu printed" fails. -/
theorem menu_exit_counterexample :
    (Args.mk "porównaj wady i zalety X i Y" 5 "google/gemini-2.5-flash-lite" "pl" "auto").mode
      = "auto" ∧
    maybeCodexCliChangelogTldr "porównaj wady i zalety X i Y" "pl" (.ok Json.null)
      = .ok (none, 0) ∧
    explicitDepthIntent "porównaj wady i zalety X i Y" = none ∧
    classifyQuery "porównaj wady i zalety X i Y" = "complex" ∧
    runMain (Args.mk "porównaj wady i zalety X i Y" 5 "google/gemini-2.5-flash-lite" "pl" "auto")
        none (.ok Json.null) (fun _ => .ok Json.null) =
      ⟨2, [], [missingKeyMsg], 0, 0⟩ :=
  ⟨rfl, rfl, rfl, rfl, rfl⟩

/-- C6 (amended): when `--max-results` passes validation and the API key is
present, a run with mode auto, a changelog no-match, no explicit depth
intent and a "complex" classification prints the two-option menu and
terminates with exit code 0 without any chat-completion call. -/
theorem menu_on_ambiguous_complex (args : Args) (apiKey : Option String)
    (github : Except String Json) (chat : Nat → Except String Json) (g : Nat)
    (hval : 1 ≤ args.maxResults ∧ args.maxResults ≤ 20)
    (htldr : maybeCodexCliChangelogTldr args.query args.lang github = .ok (none, g))
    (hkey : keyTruthy apiKey = true)
    (hmode : args.mode = "auto")
    (hintent : explicitDepthIntent args.query = none)
    (hclass : classifyQuery args.query = "complex") :
    runMain args apiKey github chat = ⟨0, [menuText], [], g, 0⟩ := by
  unfold runMain
  rw [if_neg (by omega)]
  rw [htldr]
  dsimp only
  unfold afterKey
  rw [hkey]
  rw [if_neg (by simp)]
  rw [hmode, if_pos rfl, hintent]
  dsimp only
  rw [hclass, if_pos rfl]

/-- C6 witness: the amended claim at a concrete ambiguous complex query with
the key present. -/
theorem menu_on_ambiguous_complex_witness :
    runMain (Args.mk "porównaj wady i zalety X i Y" 5 "m" "pl" "auto") (some "k")
      (.ok Json.null) (fun _ => .ok Json.null) = ⟨0, [menuText], [], 0, 0⟩ :=
  menu_on_ambiguous_complex _ _ _ _ 0 (by decide) rfl rfl rfl rfl rfl

/-- C7: an out-of-range `--max-results` terminates the run with exit code 2
and a diagnostic on the error stream before any network call, for any
arguments, environment and transports; every value 1..20 passes validation
and the run proceeds to a successful answer given a successful transport. -/
theorem maxResults_boundary :
    (∀ (args : Args) (apiKey : Option String) (github : Except String Json)
        (chat : Nat → Except String Json),
      (args.maxResults < 1 ∨ 20 < args.maxResults) →
      runMain args apiKey github chat = ⟨2, [], [maxResultsMsg], 0, 0⟩) ∧
    (∀ m : Int, 1 ≤ m → m ≤ 20 →
      runMain (Args.mk "hi" m "google/gemini-2.5-flash-lite" "pl" "auto") (some "k")
        (.ok Json.null)
        (fun _ => .ok (Json.obj [("choices", Json.arr
          [Json.obj [("message", Json.obj [("content", Json.str "ok")])]])])) =
        ⟨0, ["ok\n"], [], 0, 1⟩) := by
  constructor
  · intro args apiKey github chat h
    unfold runMain
    rw [if_pos (by omega)]
  · intro m h1 h2
    unfold runMain
    rw [if_neg (show ¬(m < 1 ∨ m > 20) by omega)]
    rfl

/-- C7 witness: 0 and 21 fail with exit code 2 and no requests; 1 and 20
succeed with the mocked transport. -/
theorem maxResults_boundary_witness :
    runMain (Args.mk "hi" 0 "m" "pl" "auto") none (.ok Json.null) (fun _ => .ok Json.null) =
      ⟨2, [], [maxResultsMsg], 0, 0⟩ ∧
    runMain (Args.mk "hi" 21 "m" "pl" "auto") none (.ok Json.null) (fun _ => .ok Json.null) =
      ⟨2, [], [maxResultsMsg], 0, 0⟩ ∧
    runMain (Args.mk "hi" 1 "google/gemini-2.5-flash-lite" "pl" "auto") (some "k") (.ok Json.null)
      (fun _ => .ok (Json.obj [("choices", Json.arr
        [Json.obj [("message", Json.obj [("content", Json.str "ok")])]])])) =
      ⟨0, ["ok\n"], [], 0, 1⟩ ∧
    runMain (Args.mk "hi" 20 "google/gemini-2.5-flash-lite" "pl" "auto") (some "k") (.ok Json.null)
      (fun _ => .ok (Json.obj [("choices", Json.arr
        [Json.obj [("message", Json.obj [("content", Json.str "ok")])]])])) =
      ⟨0, ["ok\n"], [], 0, 1⟩ :=
  ⟨maxResults_boundary.1 _ _ _ _ (by decide),
   maxResults_boundary.1 _ _ _ _ (by decide),
   maxResults_boundary.2 1 (by decide) (by decide),
   maxResults_boundary.2 20 (by decide) (by decide)⟩

/-- When no fetched entry has a matching tag with a minor inside the range,
the releases map stays empty. -/
theorem releasesFromData_nil (mn mx : Nat) :
    ∀ (items : List Json) (acc : List (Nat × Json)),
      (∀ r ∈ items, ∀ minor : Nat,
        tagMinor (pyStr (pyOrJ (jgetD r "tag_name") (Json.str ""))) = some minor →
        ¬(mn ≤ minor ∧ minor ≤ mx)) →
      List.foldl (releaseStep mn mx) acc items = acc := by
  intro items
  induction items with
  | nil => intro acc _; rfl
  | cons r rest ih =>
    intro acc h
    rw [List.foldl_cons]
    have hr : releaseStep mn mx acc r = acc := by
      unfold releaseStep
      cases r with
      | obj kvs =>
        dsimp only
        match ht : tagMinor (pyStr (pyOrJ (jgetD (Json.obj kvs) "tag_name") (Json.str ""))) with
        | some minor =>
          exact if_neg (h _ (List.mem_cons_self _ _) minor ht)
        | none => rfl
      | null => rfl
      | bool b => rfl
      | num n => rfl
      | str s => rfl
      | arr xs => rfl
    rw [hr]
    exact ih acc (fun r' hr' => h r' (List.mem_cons_of_mem _ hr'))

/-- C10: when the changelog trigger and range extraction succeed but the
fetched body is valid JSON that is not a list, or no fetched release tag
`rust-v0.NN.0` falls within the range, the short-circuit returns the
no-match signal (not an error, not an empty report) and the program
proceeds to the LLM path, which then requires the API key. -/
theorem changelog_no_match_proceeds (query lang : String) (j : Json) (mn mx : Nat)
    (hq1 : containsS (pyLowerS query) "codex" = true)
    (hq2 : containsS (pyLowerS query) "cli" = true)
    (hrng : extractCodexCliRange query = some (mn, mx))
    (hle : mn ≤ mx)
    (hbad : (∀ items, j ≠ Json.arr items) ∨
      (∃ items, j = Json.arr items ∧
        (∀ r ∈ items, ∀ minor : Nat,
          tagMinor (pyStr (pyOrJ (jgetD r "tag_name") (Json.str ""))) = some minor →
          ¬(mn ≤ minor ∧ minor ≤ mx)))) :
    maybeCodexCliChangelogTldr query lang (.ok j) = .ok (none, 1) ∧
    (∀ (args : Args) (chat : Nat → Except String Json),
      args.query = query → args.lang = lang →
      1 ≤ args.maxResults → args.maxResults ≤ 20 →
      runMain args none (.ok j) chat = ⟨2, [], [missingKeyMsg], 1, 0⟩) := by
  have htldr : maybeCodexCliChangelogTldr query lang (.ok j) = .ok (none, 1) := by
    unfold maybeCodexCliChangelogTldr
    rw [if_neg (by simp [hq1, hq2])]
    rw [hrng]
    dsimp only
    rw [if_neg (by omega)]
    rcases hbad with hna | ⟨items, rfl, hnone⟩
    · cases j with
      | arr xs => exact absurd rfl (hna xs)
      | null => rfl
      | bool b => rfl
      | num n => rfl
      | str s => rfl
      | obj kvs => rfl
    · dsimp only
      unfold releasesFromData
      rw [releasesFromData_nil mn mx items [] hnone]
      rfl
  refine ⟨htldr, ?_⟩
  intro args chat hq hl h1 h2
  unfold runMain
  rw [if_neg (by omega)]
  rw [hq, hl, htldr]
  rfl

/-- C10 witness: a non-list GitHub body for `codex cli 0.99` yields the
no-match signal, and the run then dies on the missing API key. -/
theorem changelog_no_match_proceeds_witness :
    maybeCodexCliChangelogTldr "codex cli 0.99" "pl" (.ok (Json.obj [])) = .ok (none, 1) ∧
    runMain (Args.mk "codex cli 0.99" 5 "m" "pl" "auto") none (.ok (Json.obj []))
      (fun _ => .ok Json.null) = ⟨2, [], [missingKeyMsg], 1, 0⟩ := by
  have h := changelog_no_match_proceeds "codex cli 0.99" "pl" (Json.obj []) 99 99
    (by decide) (by decide) (by decide) (by decide)
    (Or.inl (fun items heq => absurd heq (by simp)))
  exact ⟨h.1, h.2 _ _ rfl rfl (by decide) (by decide)⟩

end SearchWeb
